import Mathlib

/-!
# Go_bot: a Telegram exchange-rate bot

A shallow embedding of `cmd/main.go` (the command dispatcher and the
exchange-rate client) and `db/store.go` (the request store), followed by the
properties of the dispatcher, the client and the store.

Go functions become Lean functions that pass the state of the world
explicitly.  The world holds the `requests` table, the outbound chat messages,
the calls made to external collaborators and the process log.  What the
external collaborators answer (the HTTP transport, the JSON decoder, the
database driver) is a parameter of every function that reaches them.

A Go function returning `(value, error)` returns a pair whose second component
is `none` for a nil error.
-/

namespace GoBot

/-! ## Data model -/

/-- A Go `error`, identified with its message. -/
abbrev Err := String

/-- A finite `float64`: the number `(-1)^neg * mant * 2^exp`.  The only
`float64` values that reach the dispatcher come out of `encoding/json`, which
rejects numbers out of range and has no syntax for NaN or infinities. -/
structure Float64 where
  neg : Bool
  mant : Nat
  exp : Int
  deriving DecidableEq, Repr

/-- The zero value of `float64`. -/
def Float64.zero : Float64 := ⟨false, 0, 0⟩

/-- A `time.Time` as its civil fields in the location of the value (what
`Date()` and `Clock()` return), with the nanosecond within the second. -/
structure Time where
  year : Nat
  month : Nat
  day : Nat
  hour : Nat
  minute : Nat
  second : Nat
  nano : Nat
  deriving DecidableEq, Repr

/-- The zero value `time.Time{}`: January 1, year 1, 00:00:00 UTC. -/
def Time.zero : Time := ⟨1, 1, 1, 0, 0, 0, 0⟩

/-- The fields of a time from the most to the least significant. -/
def Time.key (t : Time) : List Nat :=
  [t.year, t.month, t.day, t.hour, t.minute, t.second, t.nano]

/-- Chronological order `a ≤ b` of two times of one location. -/
def Time.le (a b : Time) : Bool := decide (a.key ≤ b.key)

/-- A row of `requests(user_id INTEGER, cryptocurrency TEXT, created_at TIMESTAMP DEFAULT now())`. -/
structure Row where
  user_id : Int
  cryptocurrency : String
  created_at : Time
  deriving DecidableEq, Repr

/-- The part of `bootstrap.Env` the handlers receive. -/
structure Env where
  AppEnv : String
  DBDriver : String
  DBSource : String
  MigrationURL : String
  BotToken : String
  APIKey : String
  deriving DecidableEq, Repr

/-- What the handlers read of `update.Message`: `From.ID`, `Chat.ID`, and the
results of the transport library's `Command()` and `CommandArguments()`.
The sender is present: the update loop reads `From.UserName` before it hands
the message to `handleCommand`. -/
structure Message where
  fromID : Int
  chatID : Int
  command : String
  commandArguments : String
  deriving DecidableEq, Repr

/-- An HTTP response body as `json.NewDecoder(res.Body).Decode` reads it into
`struct { Base string; Rates map[string]float64 }`: either the decoder fails
with an error, or it fills the two fields.  The map is an association list in
which a key stands for its first entry. -/
inductive Body where
  | undecodable (err : Err)
  | object (base : String) (rates : List (String × Float64))
  deriving DecidableEq, Repr

/-- A call to an external collaborator other than the chat transport. -/
inductive Call where
  | httpGet (url : String)
  | exec (userID : Int) (cryptocurrency : String)
  | queryCount (userID : Int)
  | queryFirst (userID : Int)
  deriving DecidableEq, Repr

/-- The answers of the external collaborators while one message is handled:
the outcome of `http.Get` for a URL, whether the database driver fails a
statement (`some err`) or runs it (`none`), and the value of `now()` at the
database server. -/
structure External where
  httpGet : String → Except Err Body
  exec : Int → String → Option Err
  queryCount : Int → Option Err
  queryFirst : Int → Option Err
  now : Time

/-- The state of the world around the bot. -/
structure World where
  requests : List Row
  sent : List (Int × String)
  calls : List Call
  log : List Err
  deriving DecidableEq, Repr

/-! ## Formatting verbs of the Go library used by the handlers -/

/-- The verb `%d` of `fmt` on an `int`. -/
def fmtD (n : Int) : String := toString n

/-- The last `k` decimal digits of `n`, most significant first. -/
def lastDigits : Nat → Nat → List Char
  | 0, _ => []
  | k + 1, n => lastDigits k (n / 10) ++ [Nat.digitChar (n % 10)]

/-- The magnitude of a float times `10^6`, rounded to the nearest integer,
a tie going to the even one: the digits `strconv` keeps for precision 6. -/
def Float64.micros (f : Float64) : Nat :=
  match f.exp with
  | Int.ofNat e => f.mant * 2 ^ e * 1000000
  | Int.negSucc k =>
    let d := 2 ^ (k + 1)
    let q := f.mant * 1000000 / d
    let r := f.mant * 1000000 % d
    if 2 * r < d then q
    else if d < 2 * r then q + 1
    else if q % 2 = 0 then q else q + 1

/-- The verb `%f` of `fmt` on a finite `float64`: sign, integer part, a point
and six digits (the default precision). -/
def fmtF (f : Float64) : String :=
  (if f.neg then "-" else "") ++ toString (f.micros / 1000000) ++ "."
    ++ String.mk (lastDigits 6 (f.micros % 1000000))

/-- The function `appendInt` of package `time` on a non-negative number: its
decimal digits, padded with zeros on the left up to `width`. -/
def appendInt (x width : Nat) : List Char :=
  let ds := (toString x).data
  List.replicate (width - ds.length) '0' ++ ds

/-- The layout elements of package `time` that begin with a digit or a
separator. -/
inductive Std where
  | stdLongYear
  | stdYear
  | stdZeroMonth
  | stdNumMonth
  | stdZeroDay
  | stdDay
  | stdZeroYearDay
  | stdHour
  | stdZeroHour12
  | stdHour12
  | stdZeroMinute
  | stdMinute
  | stdZeroSecond
  | stdSecond
  | stdFracSecond0 (sep : Char) (digits : Nat)
  | stdFracSecond9 (sep : Char) (digits : Nat)
  deriving DecidableEq, Repr

/-- The table `std0x` of package `time`: the element written `0c` for a digit
`c` from 1 to 6. -/
def std0x (c : Char) : Std :=
  if c = '1' then Std.stdZeroMonth
  else if c = '2' then Std.stdZeroDay
  else if c = '3' then Std.stdZeroHour12
  else if c = '4' then Std.stdZeroMinute
  else if c = '5' then Std.stdZeroSecond
  else Std.stdYear

/-- One step of `nextStdChunk` of package `time`: the layout element that
starts at the head of the layout, with the layout after it, or `none` when the
head is literal text.  The elements that begin with a letter, an underscore or
a zone sign are left out. -/
def stdAt (layout : List Char) : Option (Std × List Char) :=
  match layout with
  | [] => none
  | c :: rest =>
    if c = '0' then
      match rest with
      | d :: rest2 =>
        if '1' ≤ d ∧ d ≤ '6' then some (std0x d, rest2)
        else if d = '0' ∧ rest2.head? = some '2' then some (Std.stdZeroYearDay, rest2.tail)
        else none
      | [] => none
    else if c = '1' then
      if rest.head? = some '5' then some (Std.stdHour, rest.tail)
      else some (Std.stdNumMonth, rest)
    else if c = '2' then
      if rest.take 3 = ['0', '0', '6'] then some (Std.stdLongYear, rest.drop 3)
      else some (Std.stdDay, rest)
    else if c = '3' then some (Std.stdHour12, rest)
    else if c = '4' then some (Std.stdMinute, rest)
    else if c = '5' then some (Std.stdSecond, rest)
    else if c = '.' ∨ c = ',' then
      match rest with
      | d :: _ =>
        if d = '0' ∨ d = '9' then
          let run := rest.takeWhile (fun x => x == d)
          let after := rest.dropWhile (fun x => x == d)
          if after.head?.any Char.isDigit then none
          else if d = '0' then some (Std.stdFracSecond0 c run.length, after)
          else some (Std.stdFracSecond9 c run.length, after)
        else none
      | [] => none
    else none

/-- Whether a year of the Gregorian calendar is a leap year. -/
def isLeap (year : Nat) : Bool :=
  year % 4 = 0 ∧ (year % 100 ≠ 0 ∨ year % 400 = 0)

/-- The day of the year, counted from 1. -/
def Time.yearDay (t : Time) : Nat :=
  let before := [0, 31, 59, 90, 120, 151, 181, 212, 243, 273, 304, 334].getD (t.month - 1) 0
  before + t.day + (if isLeap t.year ∧ 2 < t.month then 1 else 0)

/-- The hour on a twelve-hour clock, as `Format` computes it. -/
def Time.hour12 (t : Time) : Nat :=
  if t.hour % 12 = 0 then 12 else t.hour % 12

/-- The function `appendNano` of package `time`: the separator and the first
`digits` digits of the nanosecond; with `trim` trailing zeros are dropped, the
separator too when no digit is left, and nothing is written for a zero
nanosecond. -/
def appendNano (nano : Nat) (sep : Char) (digits : Nat) (trim : Bool) : List Char :=
  if trim ∧ (digits = 0 ∨ nano = 0) then []
  else
    let ds := (appendInt nano 9).take digits
    if trim then
      let kept := (ds.reverse.dropWhile (fun x => x == '0')).reverse
      if kept.isEmpty then [] else sep :: kept
    else sep :: ds

/-- The text `Format` writes for one layout element. -/
def Std.emit (t : Time) : Std → List Char
  | Std.stdLongYear => appendInt t.year 4
  | Std.stdYear => appendInt (t.year % 100) 2
  | Std.stdZeroMonth => appendInt t.month 2
  | Std.stdNumMonth => appendInt t.month 0
  | Std.stdZeroDay => appendInt t.day 2
  | Std.stdDay => appendInt t.day 0
  | Std.stdZeroYearDay => appendInt t.yearDay 3
  | Std.stdHour => appendInt t.hour 2
  | Std.stdZeroHour12 => appendInt t.hour12 2
  | Std.stdHour12 => appendInt t.hour12 0
  | Std.stdZeroMinute => appendInt t.minute 2
  | Std.stdMinute => appendInt t.minute 0
  | Std.stdZeroSecond => appendInt t.second 2
  | Std.stdSecond => appendInt t.second 0
  | Std.stdFracSecond0 sep digits => appendNano t.nano sep digits false
  | Std.stdFracSecond9 sep digits => appendNano t.nano sep digits true

/-- The loop of `Time.Format`: literal text is copied, a layout element is
replaced by the field of the time it stands for.  Every step consumes at least
one character, so fuel equal to the length of the layout is enough. -/
def formatLoop : Nat → List Char → Time → List Char
  | 0, _, _ => []
  | _ + 1, [], _ => []
  | fuel + 1, c :: rest, t =>
    match stdAt (c :: rest) with
    | some (std, suffix) => std.emit t ++ formatLoop fuel suffix t
    | none => c :: formatLoop fuel rest t

/-- The method `Time.Format` of package `time`, for layouts made of digits
and separators. -/
def Time.Format (t : Time) (layout : String) : String :=
  String.mk (formatLoop layout.data.length layout.data t)

/-! ## db/store.go -/

/-- The error `sql.ErrNoRows` that `Row.Scan` returns for an empty result. -/
def sqlErrNoRows : Err := "sql: no rows in result set"

/-- Insertion of a time into a list sorted in ascending order. -/
def insertAsc (t : Time) : List Time → List Time
  | [] => [t]
  | x :: xs => if t.le x then t :: x :: xs else x :: insertAsc t xs

/-- The clause `ORDER BY created_at ASC`. -/
def orderAsc : List Time → List Time
  | [] => []
  | x :: xs => insertAsc x (orderAsc xs)

/-- The result of `SELECT COUNT(*) FROM requests WHERE user_id = $1`. -/
def countQuery (requests : List Row) (userID : Int) : Int :=
  ((requests.filter (fun r => r.user_id = userID)).length : Nat)

/-- The result rows of
`SELECT created_at FROM requests WHERE user_id = $1 ORDER BY created_at ASC LIMIT 1`. -/
def firstQuery (requests : List Row) (userID : Int) : List Time :=
  (orderAsc ((requests.filter (fun r => r.user_id = userID)).map Row.created_at)).take 1

/-- The method `Store.SaveRequest`: one `INSERT INTO requests (user_id, cryptocurrency)`;
the row gets the server's `now()` as `created_at`.  A failure is logged and
returned. -/
def SaveRequest (x : External) (userID : Int) (cryptocurrency : String) (w : World) :
    Option Err × World :=
  let w1 := { w with calls := w.calls ++ [Call.exec userID cryptocurrency] }
  match x.exec userID cryptocurrency with
  | some err => (some err, { w1 with log := w1.log ++ [err] })
  | none => (none, { w1 with requests := w1.requests ++ [⟨userID, cryptocurrency, x.now⟩] })

/-- The method `Store.CountRequests`. -/
def CountRequests (x : External) (userID : Int) (w : World) : (Int × Option Err) × World :=
  let w1 := { w with calls := w.calls ++ [Call.queryCount userID] }
  match x.queryCount userID with
  | some err => ((0, some err), w1)
  | none => ((countQuery w1.requests userID, none), w1)

/-- The method `Store.GetFirstRequestTime`: `QueryRow(...).Scan` fails with
`sql.ErrNoRows` when the query has no row. -/
def GetFirstRequestTime (x : External) (userID : Int) (w : World) :
    (Time × Option Err) × World :=
  let w1 := { w with calls := w.calls ++ [Call.queryFirst userID] }
  match x.queryFirst userID with
  | some err => ((Time.zero, some err), w1)
  | none =>
    match firstQuery w1.requests userID with
    | [] => ((Time.zero, some sqlErrNoRows), w1)
    | firstRequest :: _ => ((firstRequest, none), w1)

/-! ## cmd/main.go -/

/-- The Go map index `m[key]`: the value under the key, the zero value when
the key is absent. -/
def mapIndex (m : List (String × Float64)) (key : String) : Float64 :=
  match m.lookup key with
  | some v => v
  | none => Float64.zero

/-- The function `sendMessage`: the message goes out through `bot.Send`, whose
result is dropped. -/
def sendMessage (chatID : Int) (text : String) (w : World) : World :=
  { w with sent := w.sent ++ [(chatID, text)] }

/-- The reply of `handleStartCommand`. -/
def startText : String :=
  "Привет! Я бот, который показывает курс криптовалюты в долларах. Чтобы узнать курс, отправьте мне команду /information и название криптовалюты. Например, /information BTC."

/-- The reply of `handleInformationCommand` to empty arguments. -/
def usageText : String :=
  "Вы не указали криптовалюту. Чтобы узнать курс, отправьте мне команду /information и название криптовалюты. Например, /information BTC."

/-- The reply of `handleInformationCommand` to a failed rate lookup. -/
def rateFailureText : String := "Не удалось получить курс криптовалюты."

/-- The reply of `handleInformationCommand` to a failed save. -/
def saveFailureText : String := "Не удалось сохранить ваш запрос."

/-- The reply of `handleStatisticsCommand` to a failed store read. -/
def statisticsFailureText : String := "Не удалось получить статистику."

/-- The reply of `handleUnknownCommand`. -/
def unknownText : String :=
  "Неизвестная команда. Чтобы узнать курс криптовалюты, отправьте мне команду /information и название криптовалюты. Например, /information BTC."

/-- The URL `getExchangeRate` builds with `fmt.Sprintf`. -/
def rateURL (env : Env) (cryptocurrency : String) : String :=
  "http://api.coinlayer.com/live?access_key=" ++ env.APIKey ++ "&symbols=" ++ cryptocurrency

/-- The function `getExchangeRate`: one `http.Get`, the body decoded as JSON,
the rate read from the map under the requested symbol. -/
def getExchangeRate (x : External) (env : Env) (cryptocurrency : String) (w : World) :
    (Float64 × Option Err) × World :=
  let url := rateURL env cryptocurrency
  let w1 := { w with calls := w.calls ++ [Call.httpGet url] }
  match x.httpGet url with
  | Except.error err =>
    ((Float64.zero, some ("failed to get a cryptocurrency exchange rate. " ++ err)),
      { w1 with log := w1.log ++ [err] })
  | Except.ok (Body.undecodable err) =>
    ((Float64.zero, some ("failed to parse the response from the API. " ++ err)),
      { w1 with log := w1.log ++ [err] })
  | Except.ok (Body.object _ rates) =>
    ((mapIndex rates cryptocurrency, none), w1)

/-- The function `formatCourse`. -/
def formatCourse (cryptocurrency : String) (rate : Float64) : String :=
  "Курс " ++ cryptocurrency ++ " составляет " ++ fmtF rate ++ " USD."

/-- The function `formatStatistics`. -/
def formatStatistics (count : Int) (firstRequest : Time) : String :=
  "Вы сделали " ++ fmtD count ++ " запросов. Первый запрос был "
    ++ firstRequest.Format "07.03.2023 18:04:05" ++ "."

/-- The function `handleStartCommand`. -/
def handleStartCommand (m : Message) (w : World) : World :=
  sendMessage m.chatID startText w

/-- The function `handleInformationCommand`. -/
def handleInformationCommand (x : External) (env : Env) (m : Message) (w : World) : World :=
  let args := m.commandArguments
  if args = "" then
    sendMessage m.chatID usageText w
  else
    let cryptocurrency := args
    match getExchangeRate x env cryptocurrency w with
    | ((_, some _), w1) => sendMessage m.chatID rateFailureText w1
    | ((rate, none), w1) =>
      match SaveRequest x m.fromID cryptocurrency w1 with
      | (some _, w2) =>
        sendMessage m.chatID (formatCourse cryptocurrency rate)
          (sendMessage m.chatID saveFailureText w2)
      | (none, w2) => sendMessage m.chatID (formatCourse cryptocurrency rate) w2

/-- The function `handleStatisticsCommand`; it does not use its `env`. -/
def handleStatisticsCommand (x : External) (_env : Env) (m : Message) (w : World) : World :=
  match CountRequests x m.fromID w with
  | ((_, some err), w1) =>
    sendMessage m.chatID statisticsFailureText { w1 with log := w1.log ++ [err] }
  | ((count, none), w1) =>
    match GetFirstRequestTime x m.fromID w1 with
    | ((_, some err), w2) =>
      sendMessage m.chatID statisticsFailureText { w2 with log := w2.log ++ [err] }
    | ((firstRequest, none), w2) =>
      sendMessage m.chatID (formatStatistics count firstRequest) w2

/-- The function `handleUnknownCommand`. -/
def handleUnknownCommand (m : Message) (w : World) : World :=
  sendMessage m.chatID unknownText w

/-- The function `handleCommand`: the switch on the command keyword. -/
def handleCommand (x : External) (env : Env) (m : Message) (w : World) : World :=
  if m.command = "start" then handleStartCommand m w
  else if m.command = "information" then handleInformationCommand x env m w
  else if m.command = "statistics" then handleStatisticsCommand x env m w
  else handleUnknownCommand m w

/-! ## Concrete inputs used by the examples -/

/-- A deployment environment. -/
def env0 : Env := ⟨"development", "postgres", "postgresql://db", "file://migration", "token", "key"⟩

/-- The finite float 27000.5, that is 54001 / 2. -/
def rate27000_5 : Float64 := ⟨false, 54001, -1⟩

/-- The empty world: an empty table, nothing sent, called or logged. -/
def world0 : World := ⟨[], [], [], []⟩

/-- A time on 17 May 2023. -/
def noon : Time := ⟨2023, 5, 17, 12, 0, 0, 0⟩

/-- Collaborators that all work; the pricing API answers with the rate of BTC. -/
def healthy : External where
  httpGet := fun _ => Except.ok (Body.object "USD" [("BTC", rate27000_5)])
  exec := fun _ _ => none
  queryCount := fun _ => none
  queryFirst := fun _ => none
  now := noon

/-- The message `/information BTC` of user 7 in chat 70. -/
def informationBTC : Message := ⟨7, 70, "information", "BTC"⟩

/-- The message `/information` of user 7 in chat 70. -/
def informationBare : Message := ⟨7, 70, "information", ""⟩

/-- The message `/statistics` of user 7 in chat 70. -/
def statisticsMsg : Message := ⟨7, 70, "statistics", ""⟩

/-- The message `/unknowncmd` of user 7 in chat 70. -/
def unknownMsg : Message := ⟨7, 70, "unknowncmd", ""⟩

/-- Collaborators whose pricing API answers and whose database refuses the
insert. -/
def saveDown : External := { healthy with exec := fun _ _ => some "pq: connection refused" }

/-- The same collaborators with another error value for the refused insert. -/
def saveDownOther : External := { healthy with exec := fun _ _ => some "pq: deadlock detected" }

/-- Collaborators whose database fails the query of the first request. -/
def firstDown : External :=
  { healthy with queryFirst := fun _ => some "pq: connection refused" }

/-- Collaborators whose pricing API answers with a body that is not JSON. -/
def apiGarbled : External :=
  { healthy with httpGet := fun _ => Except.ok (Body.undecodable "invalid character") }

/-- Collaborators whose pricing API cannot be reached. -/
def apiDown : External :=
  { healthy with httpGet := fun _ => Except.error "dial tcp: connection refused" }

/-- Collaborators whose pricing API answers with the rates of ETH and BTC. -/
def twoRates : External :=
  { healthy with
    httpGet := fun _ => Except.ok (Body.object "USD" [("ETH", ⟨false, 1800, 0⟩), ("BTC", rate27000_5)]) }

/-- A table with three rows of user 7, the earliest created at `first`
(a time before 2024), and one older row of user 8. -/
def historyFrom (first : Time) : World :=
  ⟨[⟨7, "BTC", ⟨2024, 1, 9, 8, 0, 0, 0⟩⟩, ⟨7, "ETH", first⟩,
    ⟨8, "BTC", ⟨2020, 1, 1, 0, 0, 0, 0⟩⟩, ⟨7, "BTC", ⟨2024, 2, 1, 9, 15, 0, 0⟩⟩], [], [], []⟩

/-! ## Notions used to state the properties -/

/-- The magnitude of a finite float as a rational number. -/
def Float64.magnitude (f : Float64) : ℚ := f.mant * (2 : ℚ) ^ f.exp

/-- The number a string of decimal digits denotes. -/
def decimalValue (ds : List Char) : Nat :=
  ds.foldl (fun acc c => 10 * acc + (c.toNat - 48)) 0

/-- Two results of one call agree up to the error value: both are errors,
whatever the errors, or both are successes with the same value. -/
def agree {α : Type} [DecidableEq α] (a b : α × Option Err) : Bool :=
  (a.2.isSome && b.2.isSome) || (a.2.isNone && b.2.isNone && decide (a.1 = b.1))

/-- Two runs of `handleCommand` on one message from one world, with
collaborators `x` and `y`, succeed or fail at the same calls to the
exchange-rate client and the store and get the same values where the calls
succeed; the error values are unrelated.  Only the calls the runs make are
compared: the save after a successful lookup, the query of the first request
after a successful count. -/
def sameOutcomes (x y : External) (env : Env) (m : Message) (w : World) : Bool :=
  if m.command = "information" then
    if m.commandArguments = "" then true
    else
      let a := getExchangeRate x env m.commandArguments w
      let b := getExchangeRate y env m.commandArguments w
      agree a.1 b.1 &&
        (a.1.2.isSome ||
          ((SaveRequest x m.fromID m.commandArguments a.2).1.isSome
            == (SaveRequest y m.fromID m.commandArguments b.2).1.isSome))
  else if m.command = "statistics" then
    let a := CountRequests x m.fromID w
    let b := CountRequests y m.fromID w
    agree a.1 b.1 &&
      (a.1.2.isSome ||
        agree (GetFirstRequestTime x m.fromID a.2).1 (GetFirstRequestTime y m.fromID b.2).1)
  else true

/-- The three fixed texts the handlers send when a call fails. -/
def failureTexts : List String := [rateFailureText, saveFailureText, statisticsFailureText]

/-- A call made while the message is handled returns an error: for
`/information` with arguments the rate lookup or, after it, the save; for
`/statistics` the count or, after it, the query of the first request. -/
def aCallFailed (x : External) (env : Env) (m : Message) (w : World) : Bool :=
  if m.command = "information" then
    if m.commandArguments = "" then false
    else
      let looked := getExchangeRate x env m.commandArguments w
      looked.1.2.isSome || (SaveRequest x m.fromID m.commandArguments looked.2).1.isSome
  else if m.command = "statistics" then
    let counted := CountRequests x m.fromID w
    counted.1.2.isSome || (GetFirstRequestTime x m.fromID counted.2).1.2.isSome
  else false

/-! ## The effect of each collaborator call on the world -/

theorem getExchangeRate_world (x : External) (env : Env) (s : String) (w w1 : World)
    (p : Float64 × Option Err) (h : getExchangeRate x env s w = (p, w1)) :
    w1.calls = w.calls ++ [Call.httpGet (rateURL env s)] ∧ w1.sent = w.sent ∧
    w1.requests = w.requests := by
  unfold getExchangeRate at h
  dsimp only at h
  split at h <;> (obtain ⟨-, rfl⟩ := Prod.mk.inj h; exact ⟨rfl, rfl, rfl⟩)

theorem getExchangeRate_calls (x : External) (env : Env) (s : String) (w : World) :
    (getExchangeRate x env s w).2.calls = w.calls ++ [Call.httpGet (rateURL env s)] :=
  (getExchangeRate_world x env s w _ _ rfl).1

theorem SaveRequest_ok (x : External) (u : Int) (s : String) (w : World)
    (h : x.exec u s = none) :
    SaveRequest x u s w = (none, { w with calls := w.calls ++ [Call.exec u s],
                                          requests := w.requests ++ [⟨u, s, x.now⟩] }) := by
  simp [SaveRequest, h]

theorem SaveRequest_fail (x : External) (u : Int) (s : String) (w : World) (err : Err)
    (h : x.exec u s = some err) :
    SaveRequest x u s w = (some err, { w with calls := w.calls ++ [Call.exec u s],
                                              log := w.log ++ [err] }) := by
  simp [SaveRequest, h]

theorem SaveRequest_error_eq (x : External) (u : Int) (s : String) (w : World) :
    (SaveRequest x u s w).1 = x.exec u s := by
  unfold SaveRequest
  dsimp only
  split <;> simp_all

theorem SaveRequest_calls (x : External) (u : Int) (s : String) (w : World) :
    (SaveRequest x u s w).2.calls = w.calls ++ [Call.exec u s] := by
  unfold SaveRequest
  split <;> rfl

theorem CountRequests_world (x : External) (u : Int) (w : World) :
    (CountRequests x u w).2 = { w with calls := w.calls ++ [Call.queryCount u] } := by
  unfold CountRequests
  split <;> rfl

theorem CountRequests_result (x : External) (u : Int) (w : World) :
    (CountRequests x u w).1
      = match x.queryCount u with
        | some err => (0, some err)
        | none => (countQuery w.requests u, none) := by
  unfold CountRequests
  dsimp only
  split <;> rfl

theorem GetFirstRequestTime_world (x : External) (u : Int) (w : World) :
    (GetFirstRequestTime x u w).2 = { w with calls := w.calls ++ [Call.queryFirst u] } := by
  unfold GetFirstRequestTime
  dsimp only
  split
  · rfl
  · split <;> rfl

theorem GetFirstRequestTime_result (x : External) (u : Int) (w : World) :
    (GetFirstRequestTime x u w).1
      = match x.queryFirst u with
        | some err => (Time.zero, some err)
        | none =>
          match firstQuery w.requests u with
          | [] => (Time.zero, some sqlErrNoRows)
          | firstRequest :: _ => (firstRequest, none) := by
  unfold GetFirstRequestTime
  dsimp only
  split
  · rfl
  · split <;> rfl

/-! ## The branches of `handleInformationCommand` -/

theorem information_lookup_failed (x : External) (env : Env) (m : Message) (w w1 : World)
    (r : Float64) (err : Err) (hargs : m.commandArguments ≠ "")
    (hrate : getExchangeRate x env m.commandArguments w = ((r, some err), w1)) :
    handleInformationCommand x env m w = sendMessage m.chatID rateFailureText w1 := by
  simp [handleInformationCommand, hargs, hrate]

theorem information_save_failed (x : External) (env : Env) (m : Message) (w w1 w2 : World)
    (r : Float64) (err : Err) (hargs : m.commandArguments ≠ "")
    (hrate : getExchangeRate x env m.commandArguments w = ((r, none), w1))
    (hsave : SaveRequest x m.fromID m.commandArguments w1 = (some err, w2)) :
    handleInformationCommand x env m w
      = sendMessage m.chatID (formatCourse m.commandArguments r)
          (sendMessage m.chatID saveFailureText w2) := by
  simp [handleInformationCommand, hargs, hrate, hsave]

theorem information_saved (x : External) (env : Env) (m : Message) (w w1 w2 : World)
    (r : Float64) (hargs : m.commandArguments ≠ "")
    (hrate : getExchangeRate x env m.commandArguments w = ((r, none), w1))
    (hsave : SaveRequest x m.fromID m.commandArguments w1 = (none, w2)) :
    handleInformationCommand x env m w
      = sendMessage m.chatID (formatCourse m.commandArguments r) w2 := by
  simp [handleInformationCommand, hargs, hrate, hsave]

/-- The outbox after `handleInformationCommand` for non-empty arguments, by
the outcome of the lookup and of the insert. -/
theorem information_outcome (x : External) (env : Env) (m : Message) (w : World)
    (hargs : m.commandArguments ≠ "") :
    (handleInformationCommand x env m w).sent
      = w.sent ++
        (if (getExchangeRate x env m.commandArguments w).1.2.isSome then
          [(m.chatID, rateFailureText)]
        else if (x.exec m.fromID m.commandArguments).isSome then
          [(m.chatID, saveFailureText),
           (m.chatID, formatCourse m.commandArguments
              (getExchangeRate x env m.commandArguments w).1.1)]
        else
          [(m.chatID, formatCourse m.commandArguments
              (getExchangeRate x env m.commandArguments w).1.1)]) := by
  rcases hrate : getExchangeRate x env m.commandArguments w with ⟨⟨r, e⟩, w1⟩
  obtain ⟨_, hsent, _⟩ := getExchangeRate_world x env _ w w1 _ hrate
  cases e with
  | some err =>
    rw [information_lookup_failed x env m w w1 r err hargs hrate]
    simp [sendMessage, hsent]
  | none =>
    cases hx : x.exec m.fromID m.commandArguments with
    | none =>
      have hs := SaveRequest_ok x m.fromID m.commandArguments w1 hx
      rw [information_saved x env m w w1 _ r hargs hrate hs]
      simp [sendMessage, hsent]
    | some err =>
      have hs := SaveRequest_fail x m.fromID m.commandArguments w1 err hx
      rw [information_save_failed x env m w w1 _ r err hargs hrate hs]
      simp [sendMessage, hsent]

/-- The outbox after `handleStatisticsCommand`, by the outcome of the two
store calls. -/
theorem statistics_outcome (x : External) (env : Env) (m : Message) (w : World) :
    (handleStatisticsCommand x env m w).sent
      = w.sent ++
        (if (CountRequests x m.fromID w).1.2.isSome
            || (GetFirstRequestTime x m.fromID (CountRequests x m.fromID w).2).1.2.isSome then
          [(m.chatID, statisticsFailureText)]
        else
          [(m.chatID, formatStatistics (CountRequests x m.fromID w).1.1
              (GetFirstRequestTime x m.fromID (CountRequests x m.fromID w).2).1.1)]) := by
  unfold handleStatisticsCommand
  rcases hc : CountRequests x m.fromID w with ⟨⟨n, e⟩, w1⟩
  have hw1 := CountRequests_world x m.fromID w
  rw [hc] at hw1
  simp only at hw1
  cases e with
  | some err => simp [sendMessage, hw1]
  | none =>
    dsimp only
    rcases hg : GetFirstRequestTime x m.fromID w1 with ⟨⟨t, e2⟩, w2⟩
    have hw2 := GetFirstRequestTime_world x m.fromID w1
    rw [hg] at hw2
    simp only at hw2
    cases e2 with
    | some err => simp [sendMessage, hw2, hw1]
    | none => simp [sendMessage, hw2, hw1]

/-! ## The dispatcher -/

/-- C1: `/information` with empty command arguments sends exactly one reply,
the usage prompt, and changes nothing else in the world: no call to the
exchange-rate client or the store is recorded and the table is untouched,
while every call of `getExchangeRate` or of a store method does leave a
record. -/
theorem information_empty_arguments_only_replies (x : External) (env : Env) (m : Message)
    (w : World) (hcmd : m.command = "information") (hargs : m.commandArguments = "") :
    handleCommand x env m w = handleInformationCommand x env m w ∧
    handleInformationCommand x env m w = { w with sent := w.sent ++ [(m.chatID, usageText)] } ∧
    (∀ s w0, (getExchangeRate x env s w0).2.calls
      = w0.calls ++ [Call.httpGet (rateURL env s)]) ∧
    (∀ u s w0, (SaveRequest x u s w0).2.calls = w0.calls ++ [Call.exec u s]) ∧
    (∀ u w0, (CountRequests x u w0).2.calls = w0.calls ++ [Call.queryCount u]) ∧
    (∀ u w0, (GetFirstRequestTime x u w0).2.calls = w0.calls ++ [Call.queryFirst u]) := by
  refine ⟨?_, ?_, ?_, ?_, ?_, ?_⟩
  · simp [handleCommand, hcmd]
  · simp [handleInformationCommand, hargs, sendMessage]
  · intro s w0; exact getExchangeRate_calls x env s w0
  · intro u s w0; exact SaveRequest_calls x u s w0
  · intro u w0; rw [CountRequests_world]
  · intro u w0; rw [GetFirstRequestTime_world]

/-- Witness of C1 at the message `/information` with working collaborators. -/
theorem information_empty_arguments_only_replies_witness :
    handleCommand healthy env0 informationBare world0 = ⟨[], [(70, usageText)], [], []⟩ := by
  have h := information_empty_arguments_only_replies healthy env0 informationBare world0
    (by decide) (by decide)
  rw [h.1, h.2.1]
  rfl

/-- C9: a message whose command keyword is none of `start`, `information`,
`statistics` gets exactly one reply, the unknown-command text, and nothing
else changes in the world: no HTTP call and no store call is recorded and the
table is untouched. -/
theorem unknown_command_only_replies (x : External) (env : Env) (m : Message) (w : World)
    (hstart : m.command ≠ "start") (hinfo : m.command ≠ "information")
    (hstat : m.command ≠ "statistics") :
    handleCommand x env m w = { w with sent := w.sent ++ [(m.chatID, unknownText)] } ∧
    (handleCommand x env m w).calls = w.calls ∧
    (handleCommand x env m w).requests = w.requests := by
  have hrun : handleCommand x env m w
      = { w with sent := w.sent ++ [(m.chatID, unknownText)] } := by
    simp [handleCommand, hstart, hinfo, hstat, handleUnknownCommand, sendMessage]
  exact ⟨hrun, by rw [hrun], by rw [hrun]⟩

/-- Witness of C9 at `/unknowncmd` and at plain text (the empty keyword). -/
theorem unknown_command_only_replies_witness :
    handleCommand healthy env0 unknownMsg world0 = ⟨[], [(70, unknownText)], [], []⟩ ∧
    handleCommand healthy env0 ⟨7, 70, "", ""⟩ world0 = ⟨[], [(70, unknownText)], [], []⟩ :=
  ⟨(unknown_command_only_replies healthy env0 unknownMsg world0
      (by decide) (by decide) (by decide)).1,
    (unknown_command_only_replies healthy env0 ⟨7, 70, "", ""⟩ world0
      (by decide) (by decide) (by decide)).1⟩

/-- C3: when the rate lookup of `/information s` succeeds with `r` and the
save fails, exactly two replies go out, first the save-failure notice and then
the formatted rate; the rate reply is the text sent when the save succeeds. -/
theorem save_failure_notice_then_rate (x : External) (env : Env) (m : Message)
    (w w1 w2 : World) (r : Float64) (err : Err) (hargs : m.commandArguments ≠ "")
    (hrate : getExchangeRate x env m.commandArguments w = ((r, none), w1))
    (hsave : SaveRequest x m.fromID m.commandArguments w1 = (some err, w2)) :
    (handleInformationCommand x env m w).sent
      = w.sent ++ [(m.chatID, "Не удалось сохранить ваш запрос."),
                   (m.chatID, formatCourse m.commandArguments r)] ∧
    (∀ (y : External) (v1 v2 : World),
      getExchangeRate y env m.commandArguments w = ((r, none), v1) →
      SaveRequest y m.fromID m.commandArguments v1 = (none, v2) →
      (handleInformationCommand y env m w).sent
        = w.sent ++ [(m.chatID, formatCourse m.commandArguments r)]) := by
  constructor
  · have hx : x.exec m.fromID m.commandArguments = some err := by
      rw [← SaveRequest_error_eq x _ _ w1, hsave]
    rw [information_outcome x env m w hargs, hrate, hx]
    rfl
  · intro y v1 v2 hr hs
    have hy : y.exec m.fromID m.commandArguments = none := by
      rw [← SaveRequest_error_eq y _ _ v1, hs]
    rw [information_outcome y env m w hargs, hr, hy]
    rfl

/-- Witness of C3 at `/information BTC` with a database that refuses the
insert. -/
theorem save_failure_notice_then_rate_witness :
    (handleInformationCommand saveDown env0 informationBTC world0).sent
      = [(70, "Не удалось сохранить ваш запрос."), (70, formatCourse "BTC" rate27000_5)] :=
  (save_failure_notice_then_rate saveDown env0 informationBTC world0
    ⟨[], [], [Call.httpGet (rateURL env0 "BTC")], []⟩
    ⟨[], [], [Call.httpGet (rateURL env0 "BTC"), Call.exec 7 "BTC"], ["pq: connection refused"]⟩
    rate27000_5 "pq: connection refused" (by decide) (by decide) (by decide)).1

/-- C4, as stated, fails: `/information BTC` with an unreachable pricing API
makes no `SaveRequest` call and stores no record, and with a database that
refuses the insert the one `SaveRequest` call adds no row. -/
theorem information_can_store_nothing :
    informationBTC.commandArguments ≠ "" ∧
    (handleInformationCommand apiDown env0 informationBTC world0).requests = [] ∧
    (handleInformationCommand apiDown env0 informationBTC world0).calls
      = [Call.httpGet (rateURL env0 "BTC")] ∧
    (handleInformationCommand saveDown env0 informationBTC world0).requests = [] ∧
    (handleInformationCommand saveDown env0 informationBTC world0).calls
      = [Call.httpGet (rateURL env0 "BTC"), Call.exec 7 "BTC"] := by
  decide

/-- C4, amended: for `/information s` with a non-empty argument, when the rate
lookup succeeds the handler makes exactly one `SaveRequest` call, which adds
the one row `(u, s)` when it succeeds and no row when it fails; when the rate
lookup fails the handler makes no `SaveRequest` call and the table is
unchanged. -/
theorem information_saves_once_after_lookup (x : External) (env : Env) (m : Message)
    (w : World) (hargs : m.commandArguments ≠ "") :
    ((getExchangeRate x env m.commandArguments w).1.2 = none →
      (handleInformationCommand x env m w).calls
        = w.calls ++ [Call.httpGet (rateURL env m.commandArguments),
                      Call.exec m.fromID m.commandArguments] ∧
      (x.exec m.fromID m.commandArguments = none →
        (handleInformationCommand x env m w).requests
          = w.requests ++ [⟨m.fromID, m.commandArguments, x.now⟩]) ∧
      (x.exec m.fromID m.commandArguments ≠ none →
        (handleInformationCommand x env m w).requests = w.requests)) ∧
    ((getExchangeRate x env m.commandArguments w).1.2 ≠ none →
      (handleInformationCommand x env m w).calls
        = w.calls ++ [Call.httpGet (rateURL env m.commandArguments)] ∧
      (handleInformationCommand x env m w).requests = w.requests) := by
  rcases hrate : getExchangeRate x env m.commandArguments w with ⟨⟨r, e⟩, w1⟩
  obtain ⟨hc, _, hr⟩ := getExchangeRate_world x env _ w w1 _ hrate
  cases e with
  | some err =>
    refine ⟨fun h => by simp at h, fun _ => ?_⟩
    rw [information_lookup_failed x env m w w1 r err hargs hrate]
    exact ⟨by simp [sendMessage, hc], by simp [sendMessage, hr]⟩
  | none =>
    refine ⟨fun _ => ?_, fun h => by simp at h⟩
    cases hx : x.exec m.fromID m.commandArguments with
    | none =>
      have hs := SaveRequest_ok x m.fromID m.commandArguments w1 hx
      rw [information_saved x env m w w1 _ r hargs hrate hs]
      exact ⟨by simp [sendMessage, hc], fun _ => by simp [sendMessage, hr],
        fun h => by simp at h⟩
    | some err =>
      have hs := SaveRequest_fail x m.fromID m.commandArguments w1 err hx
      rw [information_save_failed x env m w w1 _ r err hargs hrate hs]
      exact ⟨by simp [sendMessage, hc], fun h => by simp at h,
        fun _ => by simp [sendMessage, hr]⟩

/-- Witness of the amended C4 at `/information BTC` with working
collaborators: one row `(7, "BTC")` is added. -/
theorem information_saves_once_after_lookup_witness :
    (handleInformationCommand healthy env0 informationBTC world0).requests
      = [⟨7, "BTC", noon⟩] :=
  ((information_saves_once_after_lookup healthy env0 informationBTC world0 (by decide)).1
    (by decide)).2.1 (by decide)

/-! ## The exchange-rate client -/

theorem lookup_mem (m : List (String × Float64)) (s : String) (v : Float64)
    (h : m.lookup s = some v) : (s, v) ∈ m := by
  induction m with
  | nil => simp at h
  | cons p rest ih =>
    obtain ⟨k, a⟩ := p
    by_cases hk : s = k
    · subst hk
      simp [List.lookup] at h
      simp [h]
    · have hne : (s == k) = false := by simpa using hk
      simp [List.lookup, hne] at h
      exact List.mem_cons_of_mem _ (ih h)

theorem lookup_none (m : List (String × Float64)) (s : String)
    (h : s ∉ m.map Prod.fst) : m.lookup s = none := by
  induction m with
  | nil => rfl
  | cons p rest ih =>
    obtain ⟨k, a⟩ := p
    simp only [List.map_cons, List.mem_cons, not_or] at h
    have hne : (s == k) = false := by simpa using h.1
    simp [List.lookup, hne, ih h.2]

theorem lookup_some_of_key (m : List (String × Float64)) (s : String)
    (h : s ∈ m.map Prod.fst) : ∃ v, m.lookup s = some v := by
  induction m with
  | nil => simp at h
  | cons p rest ih =>
    obtain ⟨k, a⟩ := p
    by_cases hk : s = k
    · subst hk
      exact ⟨a, by simp [List.lookup]⟩
    · have hne : (s == k) = false := by simpa using hk
      simp only [List.map_cons, List.mem_cons] at h
      rcases h with h | h
      · exact absurd h hk
      · obtain ⟨v, hv⟩ := ih h
        exact ⟨v, by simp [List.lookup, hne, hv]⟩

theorem lookup_of_mem_nodup (m : List (String × Float64)) (s : String) (v : Float64)
    (hnd : (m.map Prod.fst).Nodup) (h : (s, v) ∈ m) : m.lookup s = some v := by
  induction m with
  | nil => simp at h
  | cons p rest ih =>
    obtain ⟨k, a⟩ := p
    simp only [List.map_cons, List.nodup_cons] at hnd
    simp only [List.mem_cons, Prod.mk.injEq] at h
    rcases h with ⟨hk, hv⟩ | h
    · subst hk; subst hv
      simp [List.lookup]
    · have hmem : s ∈ rest.map Prod.fst := List.mem_map.mpr ⟨(s, v), h, rfl⟩
      have hk : s ≠ k := fun e => hnd.1 (e ▸ hmem)
      have hne : (s == k) = false := by simpa using hk
      simp [List.lookup, hne, ih hnd.2 h]

/-- C7: when the response to the request for symbol `s` decodes to a rates
mapping `m`, `getExchangeRate` returns no error; if `s` is a key of `m` the
rate returned is a value stored under `s` itself (the value, when the keys of
`m` are distinct), and if `s` is not a key the rate returned is 0. -/
theorem getExchangeRate_reads_requested_key (x : External) (env : Env) (s : String)
    (w : World) (base : String) (m : List (String × Float64))
    (hget : x.httpGet (rateURL env s) = Except.ok (Body.object base m)) :
    (getExchangeRate x env s w).1.2 = none ∧
    (s ∈ m.map Prod.fst → (s, (getExchangeRate x env s w).1.1) ∈ m) ∧
    (∀ v, (m.map Prod.fst).Nodup → (s, v) ∈ m → (getExchangeRate x env s w).1.1 = v) ∧
    (s ∉ m.map Prod.fst → (getExchangeRate x env s w).1 = (Float64.zero, none)) := by
  have hrun : (getExchangeRate x env s w).1 = (mapIndex m s, none) := by
    simp [getExchangeRate, hget]
  rw [hrun]
  refine ⟨rfl, ?_, ?_, ?_⟩
  · intro hkey
    obtain ⟨v, hv⟩ := lookup_some_of_key m s hkey
    simpa [mapIndex, hv] using lookup_mem m s v hv
  · intro v hnd hmem
    simp [mapIndex, lookup_of_mem_nodup m s v hnd hmem]
  · intro hkey
    simp [mapIndex, lookup_none m s hkey]

/-- Witness of C7: a response with rates for ETH and BTC, asked for BTC and
for a symbol that is absent. -/
theorem getExchangeRate_reads_requested_key_witness :
    (getExchangeRate twoRates env0 "BTC" world0).1.1 = rate27000_5 ∧
    (getExchangeRate healthy env0 "DOGE" world0).1 = (Float64.zero, none) :=
  ⟨(getExchangeRate_reads_requested_key twoRates env0 "BTC" world0 "USD"
      [("ETH", ⟨false, 1800, 0⟩), ("BTC", rate27000_5)] rfl).2.2.1 rate27000_5
      (by decide) (by decide),
    (getExchangeRate_reads_requested_key healthy env0 "DOGE" world0 "USD"
      [("BTC", rate27000_5)] rfl).2.2.2 (by decide)⟩

/-! ## The store -/

theorem countQuery_append_same (rows : List Row) (u : Int) (s : String) (t : Time) :
    countQuery (rows ++ [⟨u, s, t⟩]) u = countQuery rows u + 1 := by
  simp [countQuery]

theorem countQuery_append_other (rows : List Row) (u v : Int) (s : String) (t : Time)
    (h : v ≠ u) : countQuery (rows ++ [⟨u, s, t⟩]) v = countQuery rows v := by
  have hne : ¬ u = v := fun e => h e.symm
  simp [countQuery, List.filter_cons, hne]

/-- C8: over the table as a list of rows, after a successful
`SaveRequest(u, s)` a successful `CountRequests(u)` returns the previous count
of `u` plus one, whatever the table held before (rows equal to `(u, s)`
included: a second save makes it plus two), and `CountRequests(v)` of every
other user `v` is unchanged. -/
theorem count_after_save_increments (x y : External) (u : Int) (s : String) (w : World)
    (hsave : (SaveRequest x u s w).1 = none) (hbefore : x.queryCount u = none)
    (hafter : y.queryCount u = none) :
    (CountRequests y u (SaveRequest x u s w).2).1
      = ((CountRequests x u w).1.1 + 1, none) ∧
    (CountRequests y u (SaveRequest x u s (SaveRequest x u s w).2).2).1
      = ((CountRequests x u w).1.1 + 2, none) ∧
    (∀ v, v ≠ u →
      (CountRequests y v (SaveRequest x u s w).2).1 = (CountRequests y v w).1) := by
  have hx : x.exec u s = none := by rw [← SaveRequest_error_eq x u s w]; exact hsave
  simp only [CountRequests_result, hbefore, hafter, SaveRequest_ok x u s _ hx]
  refine ⟨?_, ?_, ?_⟩
  · rw [countQuery_append_same]
  · rw [countQuery_append_same, countQuery_append_same]
    simp only [add_assoc]
    rfl
  · intro v hv
    rw [countQuery_append_other _ u v s _ hv]

/-- Witness of C8: a table that already holds `(7, "BTC")` and a row of
user 8. -/
theorem count_after_save_increments_witness :
    (CountRequests healthy 7
      (SaveRequest healthy 7 "BTC" ⟨[⟨7, "BTC", noon⟩, ⟨8, "ETH", noon⟩], [], [], []⟩).2).1
      = (2, none) :=
  (count_after_save_increments healthy healthy 7 "BTC"
    ⟨[⟨7, "BTC", noon⟩, ⟨8, "ETH", noon⟩], [], [], []⟩ (by decide) (by decide) (by decide)).1

theorem firstQuery_of_no_rows (rows : List Row) (u : Int)
    (hzero : ∀ r ∈ rows, r.user_id ≠ u) : firstQuery rows u = [] := by
  have hf : rows.filter (fun r => decide (r.user_id = u)) = [] := by
    rw [List.filter_eq_nil_iff]
    intro r hr
    simpa using hzero r hr
  simp [firstQuery, hf, orderAsc]

theorem countQuery_of_no_rows (rows : List Row) (u : Int)
    (hzero : ∀ r ∈ rows, r.user_id ≠ u) : countQuery rows u = 0 := by
  have hf : rows.filter (fun r => decide (r.user_id = u)) = [] := by
    rw [List.filter_eq_nil_iff]
    intro r hr
    simpa using hzero r hr
  simp [countQuery, hf]

theorem GetFirstRequestTime_of_no_rows (x : External) (u : Int) (w : World)
    (hzero : ∀ r ∈ w.requests, r.user_id ≠ u) :
    (GetFirstRequestTime x u w).1
      = (Time.zero, some ((x.queryFirst u).getD sqlErrNoRows)) := by
  unfold GetFirstRequestTime
  dsimp only
  rw [firstQuery_of_no_rows w.requests u hzero]
  cases x.queryFirst u <;> rfl

theorem formatStatistics_head (count : Int) (t : Time) :
    (formatStatistics count t).data.head? = some 'В' := by
  simp only [formatStatistics, String.data_append, List.append_assoc]
  rfl

/-- C5: for a user without stored rows `CountRequests` returns 0 without
error (when the database runs the query) and `GetFirstRequestTime` returns an
error; `handleStatisticsCommand` then sends exactly one reply, the fixed
failure text, which is never a text `formatStatistics` produces, and leaves
the table as it was. -/
theorem statistics_without_rows_fails (x : External) (env : Env) (m : Message) (w : World)
    (hzero : ∀ r ∈ w.requests, r.user_id ≠ m.fromID) :
    (x.queryCount m.fromID = none → (CountRequests x m.fromID w).1 = (0, none)) ∧
    (GetFirstRequestTime x m.fromID w).1.2 ≠ none ∧
    (x.queryFirst m.fromID = none →
      (GetFirstRequestTime x m.fromID w).1.2 = some sqlErrNoRows) ∧
    (handleStatisticsCommand x env m w).sent
      = w.sent ++ [(m.chatID, "Не удалось получить статистику.")] ∧
    (∀ count t, formatStatistics count t ≠ "Не удалось получить статистику.") ∧
    (handleStatisticsCommand x env m w).requests = w.requests := by
  have hfirst := GetFirstRequestTime_of_no_rows x m.fromID w hzero
  have hzero1 : ∀ r ∈ (CountRequests x m.fromID w).2.requests, r.user_id ≠ m.fromID := by
    rw [CountRequests_world]; exact hzero
  have hfirst1 := GetFirstRequestTime_of_no_rows x m.fromID _ hzero1
  refine ⟨?_, ?_, ?_, ?_, ?_, ?_⟩
  · intro hq
    rw [CountRequests_result, hq, countQuery_of_no_rows w.requests m.fromID hzero]
  · rw [hfirst]; simp
  · intro hq
    rw [hfirst, hq]; rfl
  · rw [statistics_outcome, hfirst1]
    simp [statisticsFailureText]
  · intro count t heq
    have h1 := formatStatistics_head count t
    rw [heq] at h1
    exact absurd h1 (by decide)
  · unfold handleStatisticsCommand
    rcases hc : CountRequests x m.fromID w with ⟨⟨n, e⟩, w1⟩
    have hw1 := CountRequests_world x m.fromID w
    rw [hc] at hw1
    simp only at hw1
    cases e with
    | some err => simp [sendMessage, hw1]
    | none =>
      dsimp only
      rcases hg : GetFirstRequestTime x m.fromID w1 with ⟨⟨t, e2⟩, w2⟩
      have hw2 := GetFirstRequestTime_world x m.fromID w1
      rw [hg] at hw2
      simp only at hw2
      cases e2 <;> simp [sendMessage, hw2, hw1]

/-- Witness of C5: user 7 asks for statistics while the table holds only a
row of user 8. -/
theorem statistics_without_rows_fails_witness :
    (handleStatisticsCommand healthy env0 statisticsMsg ⟨[⟨8, "ETH", noon⟩], [], [], []⟩).sent
      = [(70, "Не удалось получить статистику.")] :=
  (statistics_without_rows_fails healthy env0 statisticsMsg ⟨[⟨8, "ETH", noon⟩], [], [], []⟩
    (by decide)).2.2.2.1

/-! ## The statistics reply -/

/-- What `Format` makes of the layout `07.03.2023 18:04:05`: the text `07.`,
the hour on the twelve-hour clock in two digits, a point, the day, the day in
two digits, the hour on the twelve-hour clock, a blank, the month, the text
`8:`, the minute and the second in two digits.  The year is not part of it. -/
theorem Format_of_statistics_layout (t : Time) :
    t.Format "07.03.2023 18:04:05"
      = String.mk (['0', '7', '.'] ++ appendInt t.hour12 2 ++ ['.'] ++ appendInt t.day 0
          ++ appendInt t.day 2 ++ appendInt t.hour12 0 ++ [' '] ++ appendInt t.month 0
          ++ ['8', ':'] ++ appendInt t.minute 2 ++ [':'] ++ appendInt t.second 2) := by
  simp [Time.Format, formatLoop, stdAt, std0x, Std.emit]

/-- The statistics text does not depend on the year of the first request, and
an hour of the afternoon reads as the same hour of the morning. -/
theorem formatStatistics_forgets_year (count : Int) (t : Time) (year : Nat) :
    formatStatistics count { t with year := year } = formatStatistics count t ∧
    formatStatistics count { t with hour := t.hour + 12 } = formatStatistics count t := by
  simp [formatStatistics, Format_of_statistics_layout, Time.hour12]

/-- C6 at three concrete tables of user 7 with three rows each: whether the
earliest row was created on 17.05.2023 at 14:30:45, on 17.05.2021 at 14:30:45
or on 17.05.2023 at 02:30:45, `/statistics` sends the same single reply, whose
rendering `07.02.17172 58:30:45` shows neither the year nor the hour of the
day. -/
theorem statistics_reply_same_for_different_years :
    (handleStatisticsCommand healthy env0 statisticsMsg
        (historyFrom ⟨2023, 5, 17, 14, 30, 45, 0⟩)).sent
      = [(70, "Вы сделали 3 запросов. Первый запрос был 07.02.17172 58:30:45.")] ∧
    (handleStatisticsCommand healthy env0 statisticsMsg
        (historyFrom ⟨2021, 5, 17, 14, 30, 45, 0⟩)).sent
      = [(70, "Вы сделали 3 запросов. Первый запрос был 07.02.17172 58:30:45.")] ∧
    (handleStatisticsCommand healthy env0 statisticsMsg
        (historyFrom ⟨2023, 5, 17, 2, 30, 45, 0⟩)).sent
      = [(70, "Вы сделали 3 запросов. Первый запрос был 07.02.17172 58:30:45.")] ∧
    (GetFirstRequestTime healthy 7 (historyFrom ⟨2023, 5, 17, 14, 30, 45, 0⟩)).1
      = (⟨2023, 5, 17, 14, 30, 45, 0⟩, none) ∧
    (GetFirstRequestTime healthy 7 (historyFrom ⟨2021, 5, 17, 14, 30, 45, 0⟩)).1
      = (⟨2021, 5, 17, 14, 30, 45, 0⟩, none) ∧
    (GetFirstRequestTime healthy 7 (historyFrom ⟨2023, 5, 17, 2, 30, 45, 0⟩)).1
      = (⟨2023, 5, 17, 2, 30, 45, 0⟩, none) := by
  decide

/-! ## The rate reply -/

theorem lastDigits_length (k n : Nat) : (lastDigits k n).length = k := by
  induction k generalizing n with
  | zero => rfl
  | succ k ih => simp [lastDigits, ih]

theorem digitChar_isDigit (d : Nat) (h : d < 10) :
    (Nat.digitChar d).isDigit = true ∧ (Nat.digitChar d).toNat - 48 = d := by
  interval_cases d <;> decide

theorem lastDigits_isDigit (k n : Nat) : ∀ c ∈ lastDigits k n, c.isDigit = true := by
  induction k generalizing n with
  | zero => simp [lastDigits]
  | succ k ih =>
    intro c hc
    simp only [lastDigits, List.mem_append, List.mem_singleton] at hc
    rcases hc with hc | hc
    · exact ih _ c hc
    · rw [hc]; exact (digitChar_isDigit _ (Nat.mod_lt _ (by norm_num))).1

theorem decimalValue_lastDigits (k n : Nat) :
    decimalValue (lastDigits k n) = n % 10 ^ k := by
  induction k generalizing n with
  | zero => simp [lastDigits, decimalValue, Nat.mod_one]
  | succ k ih =>
    have h := ih (n / 10)
    unfold decimalValue at h ⊢
    simp only [lastDigits, List.foldl_append, List.foldl_cons, List.foldl_nil, h,
      (digitChar_isDigit _ (Nat.mod_lt n (by norm_num : 0 < 10))).2]
    rw [pow_succ, mul_comm (10 ^ k) 10, Nat.mod_mul]
    omega

/-- The integer `micros` is a nearest integer to the magnitude times `10^6`. -/
theorem micros_nearest (f : Float64) :
    |(f.micros : ℚ) - f.magnitude * 1000000| ≤ 1 / 2 := by
  obtain ⟨neg, mant, e⟩ := f
  cases e with
  | ofNat e =>
    have h : ((Float64.mk neg mant (Int.ofNat e)).micros : ℚ)
        = (Float64.mk neg mant (Int.ofNat e)).magnitude * 1000000 := by
      simp [Float64.micros, Float64.magnitude]
    rw [h]; norm_num
  | negSucc k =>
    have hd : (0 : ℚ) < ((2 ^ (k + 1) : Nat) : ℚ) := by positivity
    have hsplit := Nat.div_add_mod (mant * 1000000) (2 ^ (k + 1))
    have hlt := Nat.mod_lt (mant * 1000000) (by positivity : 0 < 2 ^ (k + 1))
    have hmag : (Float64.mk neg mant (Int.negSucc k)).magnitude * 1000000
        = ((mant * 1000000 / 2 ^ (k + 1) : Nat) : ℚ)
          + ((mant * 1000000 % 2 ^ (k + 1) : Nat) : ℚ) / ((2 ^ (k + 1) : Nat) : ℚ) := by
      have hc : ((mant * 1000000 : Nat) : ℚ)
          = ((2 ^ (k + 1) : Nat) : ℚ) * ((mant * 1000000 / 2 ^ (k + 1) : Nat) : ℚ)
            + ((mant * 1000000 % 2 ^ (k + 1) : Nat) : ℚ) := by
        exact_mod_cast hsplit.symm
      simp only [Float64.magnitude, zpow_negSucc]
      field_simp
      push_cast at hc ⊢
      linarith
    rw [hmag]
    simp only [Float64.micros]
    generalize mant * 1000000 / 2 ^ (k + 1) = q at *
    generalize mant * 1000000 % 2 ^ (k + 1) = r at *
    generalize 2 ^ (k + 1) = d at *
    rw [abs_le]
    split_ifs with h1 h2 h3
    · have : (2 * r : ℚ) < d := by exact_mod_cast h1
      have h0 : (0 : ℚ) ≤ (r : ℚ) / d := by positivity
      have : (r : ℚ) / d ≤ 1 / 2 := by rw [div_le_iff₀ hd]; linarith
      constructor <;> linarith
    · have : (d : ℚ) < 2 * r := by exact_mod_cast h2
      have hlt2 : (r : ℚ) < d := by exact_mod_cast hlt
      have : (1 : ℚ) / 2 ≤ (r : ℚ) / d := by rw [le_div_iff₀ hd]; linarith
      have : (r : ℚ) / d ≤ 1 := by rw [div_le_iff₀ hd]; linarith
      push_cast
      constructor <;> linarith
    · have heq : 2 * r = d := by omega
      have : (2 * r : ℚ) = d := by exact_mod_cast heq
      have : (r : ℚ) / d = 1 / 2 := by rw [div_eq_iff (ne_of_gt hd)]; linarith
      constructor <;> linarith
    · have heq : 2 * r = d := by omega
      have : (2 * r : ℚ) = d := by exact_mod_cast heq
      have : (r : ℚ) / d = 1 / 2 := by rw [div_eq_iff (ne_of_gt hd)]; linarith
      push_cast
      constructor <;> linarith

/-- C2: when `/information s` with a non-empty `s` is handled for user `u`,
the rate lookup succeeds with `r` and the save succeeds, the table gains
exactly the row `(u, s)` and exactly one reply goes out, the text
`Курс s составляет R USD.`, where `R` is the sign of `r`, the decimal integer
part, a point and six decimal digits, and the number these digits denote is
the magnitude of `r` rounded to the nearest millionth. -/
theorem information_replies_rate_and_saves (x : External) (env : Env) (m : Message)
    (w w1 : World) (r : Float64) (hargs : m.commandArguments ≠ "")
    (hrate : getExchangeRate x env m.commandArguments w = ((r, none), w1))
    (hsave : (SaveRequest x m.fromID m.commandArguments w1).1 = none) :
    (handleInformationCommand x env m w).requests
      = w.requests ++ [⟨m.fromID, m.commandArguments, x.now⟩] ∧
    (handleInformationCommand x env m w).sent
      = w.sent ++
        [(m.chatID, "Курс " ++ m.commandArguments ++ " составляет " ++ fmtF r ++ " USD.")] ∧
    (∃ frac : List Char,
      fmtF r = (if r.neg then "-" else "") ++ toString (r.micros / 1000000) ++ "."
        ++ String.mk frac ∧
      frac.length = 6 ∧ (∀ c ∈ frac, c.isDigit = true) ∧
      decimalValue frac = r.micros % 1000000) ∧
    |(r.micros : ℚ) - r.magnitude * 1000000| ≤ 1 / 2 := by
  have hx : x.exec m.fromID m.commandArguments = none := by
    rw [← SaveRequest_error_eq x _ _ w1]; exact hsave
  have hs := SaveRequest_ok x m.fromID m.commandArguments w1 hx
  obtain ⟨_, hsent, hreq⟩ := getExchangeRate_world x env _ w w1 _ hrate
  rw [information_saved x env m w w1 _ r hargs hrate hs]
  refine ⟨by simp [sendMessage, hreq], ?_, ?_, micros_nearest r⟩
  · simp [sendMessage, hsent, formatCourse]
  · exact ⟨lastDigits 6 (r.micros % 1000000), rfl, lastDigits_length _ _,
      lastDigits_isDigit _ _, by rw [decimalValue_lastDigits]; simp⟩

/-- Witness of C2: `/information BTC` of user 7 when the pricing API reports
27000.5 for BTC. -/
theorem information_replies_rate_and_saves_witness :
    (handleInformationCommand healthy env0 informationBTC world0).requests
      = [⟨7, "BTC", noon⟩] ∧
    (handleInformationCommand healthy env0 informationBTC world0).sent
      = [(70, "Курс BTC составляет 27000.500000 USD.")] := by
  have h := information_replies_rate_and_saves healthy env0 informationBTC world0
    ⟨[], [], [Call.httpGet (rateURL env0 "BTC")], []⟩ rate27000_5
    (by decide) (by decide) (by decide)
  exact ⟨h.1, h.2.1.trans (by decide)⟩

/-! ## Replies on failure -/

/-- C10, as stated, fails: on the path where the save fails the handler
sends, after the notice, the formatted rate, which is none of the three fixed
failure texts. -/
theorem rate_reply_follows_failed_save :
    aCallFailed saveDown env0 informationBTC world0 = true ∧
    (handleCommand saveDown env0 informationBTC world0).sent
      = [(70, saveFailureText), (70, "Курс BTC составляет 27000.500000 USD.")] ∧
    "Курс BTC составляет 27000.500000 USD." ∉ failureTexts := by
  decide

/-- C10, amended: two runs of `handleCommand` on one message from one world,
in which the exchange-rate client and the store succeed or fail at the same
calls, with the same values on success but any error values (a missing row in
one run and a driver error in the other, a transport error in one run and an
undecodable body in the other), send the same replies; in a run in which a
call fails every reply is one of the three fixed failure texts or, after a
failed save, the formatted rate that the successful run also sends; and after
a failed rate lookup exactly one reply goes out and the only call made is the
HTTP request, so `SaveRequest` is not called. -/
theorem replies_independent_of_error_values (x y : External) (env : Env) (m : Message)
    (w : World) (h : sameOutcomes x y env m w = true) :
    (handleCommand x env m w).sent = (handleCommand y env m w).sent ∧
    (aCallFailed x env m w = true →
      ∃ replies, (handleCommand x env m w).sent = w.sent ++ replies ∧
        ∀ reply ∈ replies,
          reply.1 = m.chatID ∧
          (reply.2 ∈ failureTexts ∨
            (m.command = "information" ∧
              (getExchangeRate x env m.commandArguments w).1.2 = none ∧
              (x.exec m.fromID m.commandArguments).isSome = true ∧
              reply.2 = formatCourse m.commandArguments
                (getExchangeRate x env m.commandArguments w).1.1))) ∧
    (m.command = "information" → m.commandArguments ≠ "" →
      (getExchangeRate x env m.commandArguments w).1.2 ≠ none →
      (handleCommand x env m w).sent = w.sent ++ [(m.chatID, rateFailureText)] ∧
      (handleCommand x env m w).calls
        = w.calls ++ [Call.httpGet (rateURL env m.commandArguments)]) := by
  by_cases hstart : m.command = "start"
  · have hx : ∀ z : External, handleCommand z env m w = sendMessage m.chatID startText w :=
      fun z => by simp [handleCommand, hstart, handleStartCommand]
    have hno : aCallFailed x env m w = false := by simp [aCallFailed, hstart]
    refine ⟨by rw [hx x, hx y], fun hf => ?_, fun hi => ?_⟩
    · rw [hno] at hf; exact absurd hf (by decide)
    · rw [hstart] at hi; exact absurd hi (by decide)
  by_cases hinfo : m.command = "information"
  · have hx : ∀ z : External, handleCommand z env m w = handleInformationCommand z env m w :=
      fun z => by simp [handleCommand, hinfo]
    rw [hx x, hx y]
    by_cases hargs : m.commandArguments = ""
    · have hz : ∀ z : External, handleInformationCommand z env m w
          = sendMessage m.chatID usageText w :=
        fun z => by simp [handleInformationCommand, hargs]
      have hno : aCallFailed x env m w = false := by simp [aCallFailed, hinfo, hargs]
      refine ⟨by rw [hz x, hz y], fun hf => ?_, fun _ hne => absurd hargs hne⟩
      rw [hno] at hf; exact absurd hf (by decide)
    · have hrx := information_outcome x env m w hargs
      have hry := information_outcome y env m w hargs
      refine ⟨?_, ?_, ?_⟩
      · have h2 := h
        simp only [sameOutcomes, hinfo, hargs, if_true, if_false, agree,
          SaveRequest_error_eq] at h2
        rw [hrx, hry]
        generalize (getExchangeRate x env m.commandArguments w).1 = a at h2 ⊢
        generalize (getExchangeRate y env m.commandArguments w).1 = b at h2 ⊢
        generalize x.exec m.fromID m.commandArguments = ex at h2 ⊢
        generalize y.exec m.fromID m.commandArguments = ey at h2 ⊢
        obtain ⟨ra, ea⟩ := a
        obtain ⟨rb, eb⟩ := b
        cases ea <;> cases eb <;> cases ex <;> cases ey <;> simp_all
      · intro hf
        have hf2 : (getExchangeRate x env m.commandArguments w).1.2.isSome = true ∨
            (x.exec m.fromID m.commandArguments).isSome = true := by
          simpa [aCallFailed, hinfo, hargs, SaveRequest_error_eq] using hf
        refine ⟨_, hrx, ?_⟩
        intro reply hmem
        cases he : (getExchangeRate x env m.commandArguments w).1.2 with
        | some err =>
          rw [he] at hmem
          have hmem2 : reply = (m.chatID, rateFailureText) := by simpa using hmem
          rw [hmem2]
          exact ⟨rfl, Or.inl (by simp [failureTexts])⟩
        | none =>
          have hexec : (x.exec m.fromID m.commandArguments).isSome = true := by
            rcases hf2 with h1 | h1
            · rw [he] at h1; simp at h1
            · exact h1
          rw [he, hexec] at hmem
          have hmem2 : reply = (m.chatID, saveFailureText) ∨
              reply = (m.chatID, formatCourse m.commandArguments
                (getExchangeRate x env m.commandArguments w).1.1) := by
            simpa using hmem
          rcases hmem2 with hmem2 | hmem2
          · rw [hmem2]
            exact ⟨rfl, Or.inl (by simp [failureTexts])⟩
          · rw [hmem2]
            exact ⟨rfl, Or.inr ⟨hinfo, rfl, hexec, rfl⟩⟩
      · intro _ _ hfail
        rcases hrate : getExchangeRate x env m.commandArguments w with ⟨⟨r, e⟩, w1⟩
        rw [hrate] at hfail
        cases e with
        | none => exact absurd rfl hfail
        | some err =>
          obtain ⟨hcalls, hsent, _⟩ := getExchangeRate_world x env _ w w1 _ hrate
          rw [information_lookup_failed x env m w w1 r err hargs hrate]
          exact ⟨by simp [sendMessage, hsent], by simp [sendMessage, hcalls]⟩
  by_cases hstat : m.command = "statistics"
  · have hx : ∀ z : External, handleCommand z env m w = handleStatisticsCommand z env m w :=
      fun z => by simp [handleCommand, hstat]
    rw [hx x, hx y]
    have hrx := statistics_outcome x env m w
    have hry := statistics_outcome y env m w
    refine ⟨?_, ?_, fun hi => absurd hi hinfo⟩
    · have h2 := h
      simp only [sameOutcomes, hinfo, hstat, if_true, if_false, agree] at h2
      rw [hrx, hry]
      generalize (GetFirstRequestTime x m.fromID (CountRequests x m.fromID w).2).1
        = c at h2 ⊢
      generalize (GetFirstRequestTime y m.fromID (CountRequests y m.fromID w).2).1
        = d at h2 ⊢
      generalize (CountRequests x m.fromID w).1 = a at h2 ⊢
      generalize (CountRequests y m.fromID w).1 = b at h2 ⊢
      obtain ⟨na, ea⟩ := a
      obtain ⟨nb, eb⟩ := b
      obtain ⟨tc, ec⟩ := c
      obtain ⟨td, ed⟩ := d
      cases ea <;> cases eb <;> cases ec <;> cases ed <;> simp_all
    intro hf
    have hf2 : ((CountRequests x m.fromID w).1.2.isSome
        || (GetFirstRequestTime x m.fromID (CountRequests x m.fromID w).2).1.2.isSome)
        = true := by
      simpa [aCallFailed, hinfo, hstat] using hf
    refine ⟨_, hrx, ?_⟩
    intro reply hmem
    rw [hf2] at hmem
    have hmem2 : reply = (m.chatID, statisticsFailureText) := by simpa using hmem
    rw [hmem2]
    exact ⟨rfl, Or.inl (by simp [failureTexts])⟩
  · have hx : ∀ z : External, handleCommand z env m w = sendMessage m.chatID unknownText w :=
      fun z => by simp [handleCommand, hstart, hinfo, hstat, handleUnknownCommand]
    have hno : aCallFailed x env m w = false := by simp [aCallFailed, hinfo, hstat]
    refine ⟨by rw [hx x, hx y], fun hf => ?_, fun hi => absurd hi hinfo⟩
    rw [hno] at hf; exact absurd hf (by decide)

/-- Witness of the amended C10: `/statistics` of a user without rows, where
the query of the first request finds no row in one run and fails in the driver
in the other; `/information BTC` where the save is refused with two different
errors, and where the pricing API is unreachable in one run and answers with
an undecodable body in the other. -/
theorem replies_independent_of_error_values_witness :
    (handleCommand healthy env0 statisticsMsg world0).sent
      = (handleCommand firstDown env0 statisticsMsg world0).sent ∧
    (handleCommand saveDown env0 informationBTC world0).sent
      = (handleCommand saveDownOther env0 informationBTC world0).sent ∧
    (handleCommand apiDown env0 informationBTC world0).sent
      = (handleCommand apiGarbled env0 informationBTC world0).sent :=
  ⟨(replies_independent_of_error_values healthy firstDown env0 statisticsMsg world0
      (by decide)).1,
    (replies_independent_of_error_values saveDown saveDownOther env0 informationBTC world0
      (by decide)).1,
    (replies_independent_of_error_values apiDown apiGarbled env0 informationBTC world0
      (by decide)).1⟩

end GoBot
